import Mathlib

/-!
Verification development for the VSCode Debug-Adapter protocol engine
(`src/debug/netcoredbg/vscodeprotocol.cpp`).

The C++ source is shallowly embedded here:

* JSON values (`nlohmann::json`) become the inductive `Json`; throwing
  accessors (`at`, `get<T>`, `std::stoi`, ...) become `Except CppErr`
  computations, where `Except.error` models a C++ exception escaping the
  function (nothing in `CommandLoop` catches, so an error at top level
  models session abort).
* `HRESULT` becomes a 32-bit unsigned code (`Nat`), with
  `SUCCEEDED hr := hr < 2^31` (a negative signed value has bit 31 set).
* The dispatch table of `HandleCommand` becomes an association list of
  handlers over an abstract `Engine` record of pure response functions
  (the debugger collaborator is external to this file's source).
* The output side (sequence counter + frames written under `m_outMutex`)
  becomes an explicit state machine: each emit site runs atomically under
  the lock in the source, so any thread interleaving is a sequence of
  atomic emit steps.
* `ReadData` becomes a structurally recursive scanner over the remaining
  input characters.

Object key order in `Json.obj` abstracts `std::map`'s sorted order; all
stated properties are key-based lookups, never order-based.
-/

set_option autoImplicit false

/-- JSON values, embedding `nlohmann::json`. Numbers are modelled as
integers (the protocol fields exercised here are all integral). -/
inductive Json where
  | null : Json
  | bool : Bool → Json
  | num : Int → Json
  | str : String → Json
  | arr : List Json → Json
  | obj : List (String × Json) → Json

/-- Errors thrown by the C++ std/json layer. An `Except.error` anywhere
models an exception propagating (uncaught) out of the enclosing code. -/
inductive CppErr where
  | outOfRange   -- nlohmann json::out_of_range (missing key), std::out_of_range
  | typeError    -- nlohmann json::type_error (wrong json type)
  | invalidArg   -- std::invalid_argument (stoi/stoul with no digits)
deriving DecidableEq

abbrev CppM := Except CppErr

/-- Left-to-right effectful map over a list (the C++ loops over json
containers): stops at the first thrown exception. -/
def mapMC {a b : Type} (f : a → CppM b) : List a → CppM (List b)
  | [] => .ok []
  | x :: xs => do
      let y ← f x
      let ys ← mapMC f xs
      pure (y :: ys)

/-- First-match association lookup on object fields (std::map find). -/
def jlookup : List (String × Json) → String → Option Json
  | [], _ => none
  | (k, v) :: fs, key => if k = key then some v else jlookup fs key

/-- Embeds `json::find`: missing key (or non-object) yields end(). -/
def Json.find? : Json → String → Option Json
  | .obj fs, key => jlookup fs key
  | _, _ => none

/-- Embeds `json::at(key)`: throws out_of_range when the key is missing,
type_error when the value is not an object. -/
def Json.at : Json → String → CppM Json
  | .obj fs, key =>
      match jlookup fs key with
      | some v => .ok v
      | none => .error .outOfRange
  | _, _ => .error .typeError

/-- Embeds `get<std::string>`. -/
def Json.getStr : Json → CppM String
  | .str s => .ok s
  | _ => .error .typeError

/-- Embeds `get<int>` (and the implicit json-to-int conversion). -/
def Json.getInt : Json → CppM Int
  | .num n => .ok n
  | _ => .error .typeError

/-- Embeds `get<bool>`. -/
def Json.getBool : Json → CppM Bool
  | .bool b => .ok b
  | _ => .error .typeError

/-- Embeds `get<vector<string>>`. -/
def Json.getStrList : Json → CppM (List String)
  | .arr items => mapMC Json.getStr items
  | _ => .error .typeError

/-- Embeds `get<map<string,string>>`. -/
def Json.getStrMap : Json → CppM (List (String × String))
  | .obj fs => mapMC (fun p => (p.2.getStr).map (fun s => (p.1, s))) fs
  | _ => .error .typeError

/-- Embeds `j.value(key, default)` for a reader of the stored type:
present key is decoded (and may throw type_error), absent key yields the
default; calling value() on a non-object throws type_error. -/
def Json.valueOf {α : Type} (j : Json) (key : String) (dflt : α)
    (read : Json → CppM α) : CppM α :=
  match j with
  | .obj fs =>
      match jlookup fs key with
      | some v => read v
      | none => .ok dflt
  | _ => .error .typeError

/-- Embeds `json[key] = v` on a fresh (null) or object json: replace the
first binding or append a new one. Other cases are unreachable in the
modelled code paths and are left unchanged. -/
def updateAssoc : List (String × Json) → String → Json → List (String × Json)
  | [], key, v => [(key, v)]
  | (k, w) :: fs, key, v =>
      if k = key then (k, v) :: fs else (k, w) :: updateAssoc fs key v

/-- Embeds assignment through `operator[]`. -/
def Json.setKey : Json → String → Json → Json
  | .null, key, v => .obj [(key, v)]
  | .obj fs, key, v => .obj (updateAssoc fs key v)
  | j, _, _ => j

/-- Embeds range-for over a json value: arrays iterate elements, objects
iterate mapped values, null iterates nothing, primitives iterate once. -/
def Json.elements : Json → List Json
  | .arr items => items
  | .obj fs => fs.map Prod.snd
  | .null => []
  | j => [j]

/-- An HRESULT as its unsigned 32-bit code. -/
abbrev HResult := Nat

def S_OK : HResult := 0
def E_FAIL : HResult := 0x80004005
def E_NOTIMPL : HResult := 0x80004001
def E_INVALIDARG : HResult := 0x80070057

/-- SUCCEEDED(hr): the sign bit (bit 31) of the HRESULT is clear. -/
def SUCCEEDED (hr : HResult) : Bool := hr < 0x80000000

def FAILED (hr : HResult) : Bool := !(SUCCEEDED hr)

/-- Embeds `std::setw(8) << std::setfill('0') << std::hex << hr`:
lowercase hex, zero-padded on the left to at least eight characters
(`Nat.toDigits 16` produces lowercase hex digits). -/
def hex8 (n : Nat) : String :=
  let ds := Nat.toDigits 16 n
  String.mk (List.replicate (8 - ds.length) '0' ++ ds)

/-- A single apostrophe, used in synthesized failure messages. -/
def squote : String := (Char.ofNat 39).toString

/-- Modelled from the spec: `ExceptionBreakMode` lives in a debugger
header that is not under `src/`. Per §3/§4.3 of the spec it is a bitmask
over All / UserUnhandled together with a fixed "unhandled" default bit
that is set on construction but not independently settable; `Never`
holds exactly when the whole mask is clear. -/
structure ExceptionBreakMode where
  all : Bool := false
  userUnhandled : Bool := false
  unhandled : Bool := true
deriving DecidableEq

namespace ExceptionBreakMode

/-- Modelled from the spec: sets the All bit. -/
def setAll (m : ExceptionBreakMode) : ExceptionBreakMode :=
  { m with all := true }

/-- Modelled from the spec: sets the UserUnhandled bit. -/
def setUserUnhandled (m : ExceptionBreakMode) : ExceptionBreakMode :=
  { m with userUnhandled := true }

/-- Modelled from the spec: clears the whole mask. -/
def resetAll (_ : ExceptionBreakMode) : ExceptionBreakMode :=
  { all := false, userUnhandled := false, unhandled := false }

/-- Modelled from the spec: the whole mask is clear. -/
def Never (m : ExceptionBreakMode) : Bool :=
  !m.all && !m.userUnhandled && !m.unhandled

/-- Modelled from the spec: the All bit is set. -/
def All (m : ExceptionBreakMode) : Bool := m.all

/-- Modelled from the spec: only the fixed unhandled bit is set. -/
def OnlyUnhandled (m : ExceptionBreakMode) : Bool :=
  m.unhandled && !m.all && !m.userUnhandled

/-- Modelled from the spec: the UserUnhandled bit is set. -/
def UserUnhandled (m : ExceptionBreakMode) : Bool := m.userUnhandled

end ExceptionBreakMode

/- Modelled from the spec: the filter keyword constants of namespace
`VSCodeExceptionBreakModeKeyWord` (declared in a header not under
`src/`); values as used by the spec's examples. -/
namespace VSCodeExceptionBreakModeKeyWord

def ALL : String := "all"
def ALWAYS : String := "always"
def NEVER : String := "never"
def USERUNHANDLED : String := "user-unhandled"
def USERUNHANDLED_A : String := "userUnhandled"
def UNHANDLED : String := "unhandled"

end VSCodeExceptionBreakModeKeyWord

/-- Nested exception detail record (protocol type; used by
`exceptionInfo`). -/
structure ExceptionDetails where
  message : String := ""
  typeName : String := ""
  fullTypeName : String := ""
  evaluateName : String := ""
  stackTrace : String := ""
  innerException : List ExceptionDetails

/-- The empty exception-details record. -/
def ExceptionDetails.empty : ExceptionDetails :=
  ⟨"", "", "", "", "", []⟩

/-- Result record of `GetExceptionInfoResponse`. -/
structure ExceptionInfoResponse where
  exceptionId : String := ""
  description : String := ""
  breakMode : ExceptionBreakMode := {}
  details : ExceptionDetails := ExceptionDetails.empty

/-- Embeds `ExceptionInfoResponse::getVSCodeBreakMode` (source lines
800-822): precedence Never, All, OnlyUnhandled, UserUnhandled, then the
"undefined" fallback. -/
def ExceptionInfoResponse.getVSCodeBreakMode (r : ExceptionInfoResponse) : String :=
  if r.breakMode.Never then VSCodeExceptionBreakModeKeyWord.NEVER
  else if r.breakMode.All then VSCodeExceptionBreakModeKeyWord.ALWAYS
  else if r.breakMode.OnlyUnhandled then VSCodeExceptionBreakModeKeyWord.UNHANDLED
  else if r.breakMode.UserUnhandled then VSCodeExceptionBreakModeKeyWord.USERUNHANDLED
  else "undefined"

/-- Embeds `static json getVSCode(const ExceptionDetails&)` (source
lines 89-114): at most the first inner exception is serialized. -/
def getVSCode : ExceptionDetails → Json
  | ⟨msg, tn, ftn, en, st, []⟩ =>
      Json.obj [("message", Json.str msg), ("typeName", Json.str tn),
                ("fullTypeName", Json.str ftn), ("evaluateName", Json.str en),
                ("stackTrace", Json.str st), ("innerException", Json.arr [])]
  | ⟨msg, tn, ftn, en, st, first :: _⟩ =>
      Json.obj [("message", Json.str msg), ("typeName", Json.str tn),
                ("fullTypeName", Json.str ftn), ("evaluateName", Json.str en),
                ("stackTrace", Json.str st),
                ("innerException", Json.arr [getVSCode first])]

/-- Source location record (protocol type). `IsNull` is declared in a
header not under `src/`; modelled from the spec as "no name or path". -/
structure Source where
  name : String := ""
  path : String := ""

def Source.IsNull (s : Source) : Bool := s.name = "" && s.path = ""

/-- Breakpoint record (protocol type). -/
structure Breakpoint where
  id : Int := 0
  line : Int := 0
  verified : Bool := false
  message : String := ""

/-- Stack frame record (protocol type). The synthetic-id computation of
the `StackFrame(threadId, level, name)` constructor is not under `src/`,
so frame records here carry the already-computed id. -/
structure StackFrame where
  id : Int := 0
  name : String := ""
  line : Int := 0
  column : Int := 0
  endLine : Int := 0
  endColumn : Int := 0
  moduleId : String := ""
  source : Source := {}

/-- Thread record (protocol type). -/
structure ThreadRec where
  id : Int := 0
  name : String := ""

/-- Scope record (protocol type). -/
structure Scope where
  name : String := ""
  variablesReference : Int := 0
  namedVariables : Int := 0

/-- Variable record (protocol type). -/
structure Variable where
  name : String := ""
  value : String := ""
  type : String := ""
  evaluateName : String := ""
  variablesReference : Int := 0
  namedVariables : Int := 0

/-- Embeds `to_json(json&, const Source&)` (source lines 30-33). -/
def sourceToJson (s : Source) : Json :=
  Json.obj [("name", Json.str s.name), ("path", Json.str s.path)]

/-- Embeds `to_json(json&, const Breakpoint&)` (source lines 35-41). -/
def breakpointToJson (b : Breakpoint) : Json :=
  Json.obj [("id", Json.num b.id), ("line", Json.num b.line),
            ("verified", Json.bool b.verified), ("message", Json.str b.message)]

/-- Embeds `to_json(json&, const StackFrame&)` (source lines 43-54). -/
def stackFrameToJson (f : StackFrame) : Json :=
  let base := Json.obj [("id", Json.num f.id), ("name", Json.str f.name),
                        ("line", Json.num f.line), ("column", Json.num f.column),
                        ("endLine", Json.num f.endLine),
                        ("endColumn", Json.num f.endColumn),
                        ("moduleId", Json.str f.moduleId)]
  if f.source.IsNull then base else base.setKey "source" (sourceToJson f.source)

/-- Embeds `to_json(json&, const Thread&)` (source lines 56-60). -/
def threadToJson (t : ThreadRec) : Json :=
  Json.obj [("id", Json.num t.id), ("name", Json.str t.name)]

/-- Embeds `to_json(json&, const Scope&)` (source lines 62-72). -/
def scopeToJson (s : Scope) : Json :=
  let base := Json.obj [("name", Json.str s.name),
                        ("variablesReference", Json.num s.variablesReference)]
  if s.variablesReference > 0 then
    base.setKey "namedVariables" (Json.num s.namedVariables)
  else base

/-- Index of the first occurrence of a character (std::string::find). -/
def strFind (c : Char) : List Char → Option Nat
  | [] => none
  | x :: xs => if x = c then some 0 else (strFind c xs).map (· + 1)

/-- Embeds `std::string(str, pos, count)` for `pos ≤ size`: the count is
clamped to the remaining length. -/
def substrFrom (s : List Char) (pos count : Nat) : List Char :=
  (s.drop pos).take count

/-- Embeds `std::string::erase(pos, count)` for `pos ≤ size`: removes at
most `count` characters starting at `pos`. -/
def strErase (s : List Char) (pos count : Nat) : List Char :=
  s.take pos ++ (s.drop pos).drop count

/-- The value of `std::string::npos` for 64-bit `size_t`. -/
def NPOS : Nat := 2 ^ 64 - 1

/-- Embeds the per-breakpoint name decomposition of the
`setFunctionBreakpoints` handler (source lines 607-626): split on the
first exclamation mark, then on the first opening and closing
parentheses, with the exact `size_t` arithmetic of the source (including
the `npos` wrap-around when no closing parenthesis exists). Returns
(module, name, params). -/
def parseFuncBpName (nameStr : String) : String × String × String :=
  let name0 := nameStr.toList
  let (module, name1) :=
    match strFind '!' name0 with
    | none => (([] : List Char), name0)
    | some i => (name0.take i, strErase name0 0 (i + 1))
  match strFind '(' name1 with
  | none => (String.mk module, String.mk name1, "")
  | some i =>
      let closeBrace : Nat :=
        match strFind ')' name1 with
        | some j => j
        | none => NPOS
      -- params = std::string(name, i, closeBrace - i + 1), size_t arithmetic
      let count := (closeBrace + 1 + (2 ^ 64 - i)) % 2 ^ 64
      let params := substrFrom name1 i count
      (String.mk module, String.mk (strErase name1 i closeBrace), String.mk params)

/-- Embeds `std::stoi` / `std::stoul` on the modelled character set:
skip leading whitespace and an optional plus sign, then parse a nonempty
run of decimal digits; with none, `std::invalid_argument` is thrown.
(Negative input and overflow are outside the modelled inputs.) -/
def isSpaceC (c : Char) : Bool :=
  c == ' ' || c == Char.ofNat 9 || c == Char.ofNat 10 ||
  c == Char.ofNat 11 || c == Char.ofNat 12 || c == Char.ofNat 13

/-- Digit run to its decimal value. -/
def digitsToNat (ds : List Char) : Nat :=
  ds.foldl (fun a c => a * 10 + (c.toNat - 48)) 0

/-- Shared parsing core of the `stoi`/`stoul` embedding. -/
def stoulOpt (l : List Char) : Option Nat :=
  let l1 := l.dropWhile isSpaceC
  let l2 := if l1.head? = some '+' then l1.tail else l1
  let ds := l2.takeWhile Char.isDigit
  if ds.isEmpty then none else some (digitsToNat ds)

/-- Embeds `std::stoi(s)` as a throwing computation. -/
def stoi (s : String) : CppM Int :=
  match stoulOpt s.toList with
  | none => .error .invalidArg
  | some n => .ok (Int.ofNat n)

/-- Disconnect actions of `Debugger::DisconnectAction` (header outside
`src/`; three cases per the spec). -/
inductive DisconnectAction where
  | disconnectDefault
  | disconnectTerminate
  | disconnectDetach
deriving DecidableEq

/-- Step kinds of `Debugger::StepType` (header outside `src/`; values
are irrelevant, only distinctness is used). -/
def STEP_OVER : Nat := 0
def STEP_IN : Nat := 1
def STEP_OUT : Nat := 2

/-- Variables filters of `VariablesFilter` (header outside `src/`). -/
def VariablesNamed : Nat := 0
def VariablesIndexed : Nat := 1
def VariablesBoth : Nat := 2

/-- Abstract debugging-engine collaborator (`m_debugger`): one pure
response function per interface operation consumed by the source. The
`stackFrameId` field models the synthetic-id computation of the
`StackFrame(threadId, level, name)` constructor, which lives outside
`src/` (modelled from the spec: evaluate resolves to frame `level` of
the given thread's synthetic frame id). -/
structure Engine where
  configurationDone : HResult := S_OK
  insertExceptionBreakpoint : ExceptionBreakMode → String → Nat := fun _ _ => 0
  getExceptionInfo : Int → Option ExceptionInfoResponse := fun _ => none
  setBreakpoints : String → List (Int × String) → HResult × List Breakpoint :=
    fun _ _ => (S_OK, [])
  launch : String → List String → List (String × String) → String → Bool → HResult :=
    fun _ _ _ _ _ => S_OK
  attach : Int → HResult := fun _ => S_OK
  getThreads : HResult × List ThreadRec := (S_OK, [])
  disconnect : DisconnectAction → Unit := fun _ => ()
  getStackTrace : Int → Int → Int → HResult × List StackFrame × Int :=
    fun _ _ _ => (S_OK, [], 0)
  continueExec : Int → HResult := fun _ => S_OK
  pause : HResult := S_OK
  stepCommand : Int → Nat → HResult := fun _ _ => S_OK
  getScopes : Int → HResult × List Scope := fun _ => (S_OK, [])
  getVariables : Int → Nat → Int → Int → HResult × List Variable :=
    fun _ _ _ _ => (S_OK, [])
  evaluate : Int → String → HResult × Variable × String := fun _ _ => (S_OK, {}, "")
  setVariable : String → String → Int → HResult × String := fun _ _ _ => (S_OK, "")
  setFunctionBreakpoints : List (String × String × String × String) →
    HResult × List Breakpoint := fun _ => (S_OK, [])
  getLastStoppedThreadId : Int := 0
  stackFrameId : Int → Int → Int := fun _ _ => 0

/-- Protocol-object state read by the handlers (`m_fileExec`,
`m_execArgs`, set at construction). -/
structure ProtoConfig where
  fileExec : String := ""
  execArgs : List String := []

/-- Embeds `to_json(json&, const Variable&)` (source lines 74-87). -/
def variableToJson (v : Variable) : Json :=
  let base := Json.obj [("name", Json.str v.name), ("value", Json.str v.value),
                        ("type", Json.str v.type),
                        ("evaluateName", Json.str v.evaluateName),
                        ("variablesReference", Json.num v.variablesReference)]
  if v.variablesReference > 0 then
    base.setKey "namedVariables" (Json.num v.namedVariables)
  else base

/-- Result type of a command handler: the returned `HRESULT` together
with the body it filled in (an `Except.error` is a C++ exception
escaping the handler). -/
abbrev HandlerOut := CppM (HResult × Json)

/-- Embeds `AddCapabilitiesTo` (source lines 336-343). -/
def addCapabilitiesTo (capabilities : Json) : Json :=
  ((((capabilities.setKey "supportsConfigurationDoneRequest" (Json.bool true)).setKey
      "supportsFunctionBreakpoints" (Json.bool true)).setKey
      "supportsConditionalBreakpoints" (Json.bool true)).setKey
      "supportTerminateDebuggee" (Json.bool true)).setKey
      "supportsExceptionInfoRequest" (Json.bool true)

/-- Embeds one iteration of the filter loop in the
`setExceptionBreakpoints` handler (source lines 364-378): three
independent comparisons applied in order; "unhandled" matches none. -/
def filterStep (mode : ExceptionBreakMode) (f : String) : ExceptionBreakMode :=
  let mode :=
    if f == VSCodeExceptionBreakModeKeyWord.ALL ||
       f == VSCodeExceptionBreakModeKeyWord.ALWAYS then mode.setAll else mode
  let mode :=
    if f == VSCodeExceptionBreakModeKeyWord.USERUNHANDLED ||
       f == VSCodeExceptionBreakModeKeyWord.USERUNHANDLED_A then
      mode.setUserUnhandled
    else mode
  -- Nothing to do for "unhandled"
  if f == VSCodeExceptionBreakModeKeyWord.NEVER then mode.resetAll else mode

/-- The whole filter fold of the `setExceptionBreakpoints` handler, from
the default-constructed mode. -/
def fromFilters (filters : List String) : ExceptionBreakMode :=
  filters.foldl filterStep {}

/-- Embeds the "initialize" handler (source lines 348-357). The
capabilities event it emits is an output-side effect modelled by the
sequencer state machine, orthogonal to the returned pair. -/
def initializeCmd (_ : ProtoConfig) (_ : Engine) (_ : Json) : HandlerOut :=
  .ok (S_OK, addCapabilitiesTo (Json.obj []))

/-- Embeds the "setExceptionBreakpoints" handler (source lines 358-391). -/
def setExceptionBreakpointsCmd (_ : ProtoConfig) (eng : Engine) (arguments : Json) :
    HandlerOut := do
  let filters ← arguments.valueOf "filters" [] Json.getStrList
  let mode := filters.foldl filterStep {}
  let _ := eng.insertExceptionBreakpoint mode "*"
  pure (S_OK, (Json.obj []).setKey "supportsExceptionOptions" (Json.bool false))

/-- Embeds the "configurationDone" handler (source lines 392-394). -/
def configurationDoneCmd (_ : ProtoConfig) (eng : Engine) (_ : Json) : HandlerOut :=
  .ok (eng.configurationDone, Json.obj [])

/-- Embeds the "exceptionInfo" handler (source lines 395-409). -/
def exceptionInfoCmd (_ : ProtoConfig) (eng : Engine) (arguments : Json) :
    HandlerOut := do
  let threadId ← (← arguments.at "threadId").getInt
  match eng.getExceptionInfo threadId with
  | some resp =>
      let body := ((((Json.obj []).setKey "breakMode"
          (Json.str resp.getVSCodeBreakMode)).setKey
          "exceptionId" (Json.str resp.exceptionId)).setKey
          "description" (Json.str resp.description)).setKey
          "details" (getVSCode resp.details)
      pure (S_OK, body)
  | none => pure (E_FAIL, Json.obj [])

/-- Embeds the "setBreakpoints" handler (source lines 410-423). -/
def setBreakpointsCmd (_ : ProtoConfig) (eng : Engine) (arguments : Json) :
    HandlerOut := do
  let bpsArg ← arguments.at "breakpoints"
  let srcBreakpoints ← mapMC (fun b => do
      let line ← (← b.at "line").getInt
      let cond ← b.valueOf "condition" "" Json.getStr
      pure (line, cond)) bpsArg.elements
  let path ← (← (← arguments.at "source").at "path").getStr
  let (status, breakpoints) := eng.setBreakpoints path srcBreakpoints
  if SUCCEEDED status then
    pure (S_OK, (Json.obj []).setKey "breakpoints"
      (Json.arr (breakpoints.map breakpointToJson)))
  else pure (status, Json.obj [])

/-- Embeds the "launch" handler (source lines 424-441). The try/catch
around env decoding is modelled, per the spec's design note, as the
visible fallback "on decode failure, use the empty map". -/
def launchCmd (cfg : ProtoConfig) (eng : Engine) (arguments : Json) :
    HandlerOut := do
  let cwd ← (← arguments.at "cwd").getStr
  let env : List (String × String) :=
    match (arguments.at "env").bind Json.getStrMap with
    | .ok m => m
    | .error _ => []
  if cfg.fileExec ≠ "" then do
    let stopAtEntry ← arguments.valueOf "stopAtEntry" false Json.getBool
    pure (eng.launch cfg.fileExec cfg.execArgs env cwd stopAtEntry, Json.obj [])
  else do
    let args ← arguments.valueOf "args" [] Json.getStrList
    let program ← (← arguments.at "program").getStr
    let stopAtEntry ← arguments.valueOf "stopAtEntry" false Json.getBool
    pure (eng.launch "dotnet" (program :: args) env cwd stopAtEntry, Json.obj [])

/-- Embeds the "threads" handler (source lines 442-450). -/
def threadsCmd (_ : ProtoConfig) (eng : Engine) (_ : Json) : HandlerOut :=
  let (status, threads) := eng.getThreads
  if SUCCEEDED status then
    .ok (S_OK, (Json.obj []).setKey "threads"
      (Json.arr (threads.map threadToJson)))
  else .ok (status, Json.obj [])

/-- Embeds the "disconnect" handler (source lines 451-463); the
session-exit flag it sets drives the loop, not the returned pair. -/
def disconnectCmd (_ : ProtoConfig) (eng : Engine) (arguments : Json) :
    HandlerOut := do
  let action ← match arguments.find? "terminateDebuggee" with
    | none => pure DisconnectAction.disconnectDefault
    | some v => do
        let b ← v.getBool
        pure (if b then DisconnectAction.disconnectTerminate
              else DisconnectAction.disconnectDetach)
  let _ := eng.disconnect action
  pure (S_OK, Json.obj [])

/-- Embeds the "stackTrace" handler (source lines 464-483). -/
def stackTraceCmd (_ : ProtoConfig) (eng : Engine) (arguments : Json) :
    HandlerOut := do
  let threadId ← (← arguments.at "threadId").getInt
  let startFrame ← arguments.valueOf "startFrame" 0 Json.getInt
  let levels ← arguments.valueOf "levels" 0 Json.getInt
  let (status, stackFrames, totalFrames) := eng.getStackTrace threadId startFrame levels
  if SUCCEEDED status then
    pure (S_OK, ((Json.obj []).setKey "stackFrames"
        (Json.arr (stackFrames.map stackFrameToJson))).setKey
        "totalFrames" (Json.num totalFrames))
  else pure (status, Json.obj [])

/-- Embeds the "continue" handler (source lines 484-490). -/
def continueCmd (_ : ProtoConfig) (eng : Engine) (arguments : Json) :
    HandlerOut := do
  let body := (Json.obj []).setKey "allThreadsContinued" (Json.bool true)
  let threadId ← (← arguments.at "threadId").getInt
  let body := body.setKey "threadId" (Json.num threadId)
  pure (eng.continueExec threadId, body)

/-- Embeds the "pause" handler (source lines 491-493). -/
def pauseCmd (_ : ProtoConfig) (eng : Engine) (_ : Json) : HandlerOut :=
  .ok (eng.pause, Json.obj [])

/-- Embeds the "next" handler (source lines 494-496). -/
def nextCmd (_ : ProtoConfig) (eng : Engine) (arguments : Json) : HandlerOut := do
  let threadId ← (← arguments.at "threadId").getInt
  pure (eng.stepCommand threadId STEP_OVER, Json.obj [])

/-- Embeds the "stepIn" handler (source lines 497-499). -/
def stepInCmd (_ : ProtoConfig) (eng : Engine) (arguments : Json) : HandlerOut := do
  let threadId ← (← arguments.at "threadId").getInt
  pure (eng.stepCommand threadId STEP_IN, Json.obj [])

/-- Embeds the "stepOut" handler (source lines 500-502). -/
def stepOutCmd (_ : ProtoConfig) (eng : Engine) (arguments : Json) : HandlerOut := do
  let threadId ← (← arguments.at "threadId").getInt
  pure (eng.stepCommand threadId STEP_OUT, Json.obj [])

/-- Embeds the "scopes" handler (source lines 503-511). -/
def scopesCmd (_ : ProtoConfig) (eng : Engine) (arguments : Json) : HandlerOut := do
  let frameId ← (← arguments.at "frameId").getInt
  let (status, scopes) := eng.getScopes frameId
  if SUCCEEDED status then
    pure (S_OK, (Json.obj []).setKey "scopes" (Json.arr (scopes.map scopeToJson)))
  else pure (status, Json.obj [])

/-- Embeds the "variables" handler (source lines 512-533). -/
def variablesCmd (_ : ProtoConfig) (eng : Engine) (arguments : Json) :
    HandlerOut := do
  let filterName ← arguments.valueOf "filter" "" Json.getStr
  let filter :=
    if filterName = "named" then VariablesNamed
    else if filterName = "indexed" then VariablesIndexed
    else VariablesBoth
  let ref ← (← arguments.at "variablesReference").getInt
  let start ← arguments.valueOf "start" 0 Json.getInt
  let count ← arguments.valueOf "count" 0 Json.getInt
  let (status, vars) := eng.getVariables ref filter start count
  if SUCCEEDED status then
    pure (S_OK, (Json.obj []).setKey "variables"
      (Json.arr (vars.map variableToJson)))
  else pure (status, Json.obj [])

/-- The tail of the "evaluate" handler after the frame id has been
resolved (source lines 550-567): call the engine, and build either the
failure body carrying the engine's output text as "message" or the
success body with value, type, reference and (for a positive reference)
the named-variable count. -/
def evalCore (eng : Engine) (frameId : Int) (expression : String) : HandlerOut :=
  let (status, var, output) := eng.evaluate frameId expression
  if FAILED status then
    .ok (status, (Json.obj []).setKey "message" (Json.str output))
  else
    let body := (((Json.obj []).setKey "result" (Json.str var.value)).setKey
        "type" (Json.str var.type)).setKey
        "variablesReference" (Json.num var.variablesReference)
    let body :=
      if var.variablesReference > 0 then
        body.setKey "namedVariables" (Json.num var.namedVariables)
      else body
    .ok (S_OK, body)

/-- Embeds the "evaluate" handler (source lines 534-568). -/
def evaluateCmd (_ : ProtoConfig) (eng : Engine) (arguments : Json) :
    HandlerOut := do
  let expression ← (← arguments.at "expression").getStr
  let frameId ← match arguments.find? "frameId" with
    | none => pure (eng.stackFrameId eng.getLastStoppedThreadId 0)
    | some v => v.getInt
  evalCore eng frameId expression

/-- Embeds the "attach" handler (source lines 569-581). A string
processId goes through `std::stoi` (which throws on non-numeric input);
a number is taken as is; any other json type yields `E_INVALIDARG`. -/
def attachCmd (_ : ProtoConfig) (eng : Engine) (arguments : Json) : HandlerOut := do
  let processIdArg ← arguments.at "processId"
  match processIdArg with
  | .str s => do
      let processId ← stoi s
      pure (eng.attach processId, Json.obj [])
  | .num n => pure (eng.attach n, Json.obj [])
  | _ => pure (E_INVALIDARG, Json.obj [])

/-- Embeds the "setVariable" handler (source lines 582-600). -/
def setVariableCmd (_ : ProtoConfig) (eng : Engine) (arguments : Json) :
    HandlerOut := do
  let name ← (← arguments.at "name").getStr
  let value ← (← arguments.at "value").getStr
  let ref ← (← arguments.at "variablesReference").getInt
  let (status, output) := eng.setVariable name value ref
  if FAILED status then
    pure (status, (Json.obj []).setKey "message" (Json.str output))
  else
    pure (S_OK, (Json.obj []).setKey "value" (Json.str output))

/-- Embeds one iteration of the breakpoints loop of the
`setFunctionBreakpoints` handler (source lines 605-628): read the name,
decompose it, read the optional condition, and build the forwarded
(module, name, params, condition) tuple. -/
def decodeFuncBp (b : Json) : CppM (String × String × String × String) := do
  let nm ← (← b.at "name").getStr
  let cond ← b.valueOf "condition" "" Json.getStr
  let (module, name, params) := parseFuncBpName nm
  pure (module, name, params, cond)

/-- Embeds the "setFunctionBreakpoints" handler (source lines 601-637). -/
def setFunctionBreakpointsCmd (_ : ProtoConfig) (eng : Engine) (arguments : Json) :
    HandlerOut := do
  let bpsArg ← arguments.at "breakpoints"
  let funcBreakpoints ← mapMC decodeFuncBp bpsArg.elements
  let (status, breakpoints) := eng.setFunctionBreakpoints funcBreakpoints
  if SUCCEEDED status then
    pure (S_OK, (Json.obj []).setKey "breakpoints"
      (Json.arr (breakpoints.map breakpointToJson)))
  else pure (status, Json.obj [])

/-- The dispatch table of `HandleCommand` (source lines 347-638). -/
def commands : List (String × (ProtoConfig → Engine → Json → HandlerOut)) :=
  [("initialize", initializeCmd),
   ("setExceptionBreakpoints", setExceptionBreakpointsCmd),
   ("configurationDone", configurationDoneCmd),
   ("exceptionInfo", exceptionInfoCmd),
   ("setBreakpoints", setBreakpointsCmd),
   ("launch", launchCmd),
   ("threads", threadsCmd),
   ("disconnect", disconnectCmd),
   ("stackTrace", stackTraceCmd),
   ("continue", continueCmd),
   ("pause", pauseCmd),
   ("next", nextCmd),
   ("stepIn", stepInCmd),
   ("stepOut", stepOutCmd),
   ("scopes", scopesCmd),
   ("variables", variablesCmd),
   ("evaluate", evaluateCmd),
   ("attach", attachCmd),
   ("setVariable", setVariableCmd),
   ("setFunctionBreakpoints", setFunctionBreakpointsCmd)]

/-- First-match lookup in the dispatch table. -/
def findHandler (tbl : List (String × (ProtoConfig → Engine → Json → HandlerOut)))
    (command : String) : Option (ProtoConfig → Engine → Json → HandlerOut) :=
  match tbl with
  | [] => none
  | (k, h) :: rest => if k = command then some h else findHandler rest command

/-- Embeds `VSCodeProtocol::HandleCommand` (source lines 345-647):
dispatch-table lookup, `E_NOTIMPL` for an unknown command. -/
def handleCommand (cfg : ProtoConfig) (eng : Engine) (command : String)
    (arguments : Json) : CppM (HResult × Json) :=
  match findHandler commands command with
  | none => .ok (E_NOTIMPL, Json.obj [])
  | some h => h cfg eng arguments

/-- Embeds the response-building block of `VSCodeProtocol::CommandLoop`
(source lines 711-737): on failure the message is taken from the body's
"message" field when present, otherwise synthesized from the command
name and the status code in zero-padded hexadecimal. -/
def buildResponse (command : String) (requestSeq : Json) (status : HResult)
    (body : Json) : Json :=
  let response := ((Json.null.setKey "type" (Json.str "response")).setKey
      "command" (Json.str command)).setKey "request_seq" requestSeq
  if SUCCEEDED status then
    (response.setKey "success" (Json.bool true)).setKey "body" body
  else
    let response :=
      match body.find? "message" with
      | none => response.setKey "message"
          (Json.str ("Failed command " ++ squote ++ command ++ squote ++
                     " : 0x" ++ hex8 status))
      | some m => response.setKey "message" m
    response.setKey "success" (Json.bool false)

/-- Embeds the arguments extraction of `CommandLoop` (source lines
705-706): a missing "arguments" member defaults to the empty object. -/
def argumentsOf (request : Json) : Json :=
  match request.find? "arguments" with
  | none => Json.obj []
  | some v => v

/-- Embeds one iteration of `VSCodeProtocol::CommandLoop` on an already
parsed request (source lines 700-745): extract the command, default the
arguments to the empty object when absent, dispatch, and build the
response. An `Except.error` models a C++ exception escaping the loop
(the session aborts; no response is produced). -/
def processRequest (cfg : ProtoConfig) (eng : Engine) (request : Json) :
    CppM Json := do
  let command ← (← request.at "command").getStr
  let arguments := argumentsOf request
  let (status, body) ← handleCommand cfg eng command arguments
  let reqSeq ← request.at "seq"
  pure (buildResponse command reqSeq status body)

/-- Payload of one outbound frame, tagged by its emitting site in the
source. -/
inductive EmitKind where
  | event (name : String) (body : Json)
  | response (resp : Json)
  | consoleLog (text : String)

/-- One frame as written to the output stream, carrying the `seq` it was
assigned. -/
structure OutFrame where
  seq : Nat
  payload : EmitKind

/-- The shared mutable output resource guarded by `m_outMutex`: the
sequence counter and the stream of frames written so far. Modelled from
the spec for the initial value: the counter member initializer lives in
the header (not under `src/`) and the spec fixes it to 1 at engine
start. -/
structure OutState where
  seqCounter : Nat
  frames : List OutFrame

def initialOutState : OutState := { seqCounter := 1, frames := [] }

/-- Embeds `VSCodeProtocol::EmitEvent` (source lines 316-330): inside
the single `m_outMutex` critical section the message is given
`seq = m_seqCounter`, the counter is incremented exactly once, and the
frame is written. -/
def emitEventFrame (s : OutState) (name : String) (body : Json) : OutState :=
  { seqCounter := s.seqCounter + 1,
    frames := s.frames ++ [⟨s.seqCounter, EmitKind.event name body⟩] }

/-- Embeds the response-write block of `CommandLoop` (source lines
711-745): same critical section, same seq-assign/increment/write
pattern. -/
def writeResponseFrame (s : OutState) (resp : Json) : OutState :=
  { seqCounter := s.seqCounter + 1,
    frames := s.frames ++ [⟨s.seqCounter, EmitKind.response resp⟩] }

/-- Embeds the `LogConsole` branch of `VSCodeProtocol::Log` (source
lines 781-796), which runs with `m_outMutex` already held by the
caller: same seq-assign/increment/write pattern. -/
def logConsoleFrame (s : OutState) (text : String) : OutState :=
  { seqCounter := s.seqCounter + 1,
    frames := s.frames ++ [⟨s.seqCounter, EmitKind.consoleLog text⟩] }

/-- One atomic occupation of the output critical section. Threads only
interleave between (never inside) these steps, so any concurrent run is
a fold of steps. -/
def emitStep (s : OutState) : EmitKind → OutState
  | .event name body => emitEventFrame s name body
  | .response resp => writeResponseFrame s resp
  | .consoleLog text => logConsoleFrame s text

/-- A whole engine-lifetime run: the sequence of critical-section
occupations, in wire order, from any mix of threads. -/
def runEmits (ops : List EmitKind) : OutState :=
  ops.foldl emitStep initialOutState

/-- The two framing constants (source lines 649-650). -/
def TWO_CRLF : List Char := ['\r', '\n', '\r', '\n']

def CONTENT_LENGTH : List Char := "Content-Length: ".toList

/-- The terminator test of the `ReadData` loop: the last four
accumulated characters are CRLF CRLF (false while fewer than four
characters have accumulated), written over the reversed header. -/
def twoCrlfSuffix (header : List Char) : Bool :=
  header.reverse.take 4 == ['\n', '\r', '\n', '\r']

/-- Pattern-at-start test used by the substring search. -/
def isPrefixL : List Char → List Char → Bool
  | [], _ => true
  | _ :: _, [] => false
  | p :: ps, x :: xs => p == x && isPrefixL ps xs

/-- Embeds `std::string::find(pattern)`: index of the first occurrence. -/
def findSubstr (pat : List Char) : List Char → Option Nat
  | [] => if pat.isEmpty then some 0 else none
  | x :: xs =>
      if isPrefixL pat (x :: xs) then some 0
      else (findSubstr pat xs).map (· + 1)

/-- Outcome of one `ReadData` call: the returned string together with
the unconsumed input (the empty string signals end of session), or a
thrown `std::invalid_argument` from `std::stoul`. -/
inductive ReadOut where
  | ret (body : String) (rest : List Char)
  | thrown
deriving DecidableEq

/-- Embeds `VSCodeProtocol::ReadData` (source lines 652-684) on the
remaining input characters: accumulate until the header ends with CRLF
CRLF; without a `Content-Length: ` field keep scanning; with one, parse
the count and read exactly that many characters; a failed `cin.get` or
`cin.read` returns the empty string. -/
def readData : List Char → List Char → ReadOut
  | [], _ => .ret "" []
  | c :: rest, header =>
    let header' := header ++ [c]
    if twoCrlfSuffix header' then
      match findSubstr CONTENT_LENGTH header' with
      | none => readData rest header'
      | some lengthIndex =>
          match stoulOpt (header'.drop (lengthIndex + CONTENT_LENGTH.length)) with
          | none => .thrown
          | some contentLength =>
              if contentLength ≤ rest.length then
                .ret (String.mk (rest.take contentLength)) (rest.drop contentLength)
              else .ret "" []
    else readData rest header'

/-- A concrete engine instance (all operations respond with defaults),
used to evaluate closed statements. -/
def eng0 : Engine := {}

/-- A concrete protocol configuration with no executable override. -/
def cfg0 : ProtoConfig := {}

/-- A concrete engine instance whose configurationDone reports failure,
used to evaluate closed statements about failure propagation. -/
def engFail : Engine := { configurationDone := E_FAIL }

lemma emitStep_frames (s : OutState) (op : EmitKind) :
    (emitStep s op).frames = s.frames ++ [⟨s.seqCounter, op⟩] ∧
    (emitStep s op).seqCounter = s.seqCounter + 1 := by
  cases op <;>
    simp [emitStep, emitEventFrame, writeResponseFrame, logConsoleFrame]

/-- A run from any intermediate state appends frames whose seq values
continue the counter contiguously, advancing it once per emit. -/
lemma runEmits_from (ops : List EmitKind) : ∀ (s : OutState),
    ((ops.foldl emitStep s).frames.map OutFrame.seq =
      s.frames.map OutFrame.seq ++ List.range' s.seqCounter ops.length) ∧
    (ops.foldl emitStep s).seqCounter = s.seqCounter + ops.length := by
  induction ops with
  | nil => intro s; simp
  | cons op ops ih =>
      intro s
      have h := ih (emitStep s op)
      have hstep := emitStep_frames s op
      rw [List.foldl_cons]
      constructor
      · rw [h.1, hstep.1, hstep.2, List.length_cons, List.range'_succ]
        simp [List.append_assoc]
      · rw [h.2, hstep.2, List.length_cons]
        omega

/-- C1: every outbound message (event, response, or console-mode log
frame) is assigned its seq and written inside the single output critical
section with the counter incremented exactly once per message; hence a
whole-lifetime run of N emit steps, from any mix of the command-loop
thread and event threads, writes seq values that are exactly 1..N, with
no repeats, strictly increasing in write order, and leaves the counter
at 1+N. -/
theorem seq_lifecycle_exact_range (ops : List EmitKind) :
    (runEmits ops).frames.map OutFrame.seq = List.range' 1 ops.length ∧
    ((runEmits ops).frames.map OutFrame.seq).Pairwise (· < ·) ∧
    ((runEmits ops).frames.map OutFrame.seq).Nodup ∧
    (runEmits ops).seqCounter = 1 + ops.length := by
  have h := runEmits_from ops initialOutState
  have hmap : (runEmits ops).frames.map OutFrame.seq = List.range' 1 ops.length := by
    simpa [runEmits, initialOutState] using h.1
  refine ⟨hmap, ?_, ?_, ?_⟩
  · rw [hmap]; exact List.pairwise_lt_range' 1 ops.length 1 Nat.one_pos
  · rw [hmap]; exact List.nodup_range' 1 ops.length 1 Nat.one_pos
  · simpa [runEmits, initialOutState] using h.2

/-- C4: the filter fold of `setExceptionBreakpoints` proceeds left to
right; "always"/"all" set the All bit, both spellings of user-unhandled
set the UserUnhandled bit, "never" resets the whole mask (so a later
"never" erases everything before it), unrecognized keywords (including
"unhandled") change nothing; and the three concrete examples hold. -/
theorem fromFilters_fold_spec :
    (∀ (m : ExceptionBreakMode) (f : String),
        f ∉ ["all", "always", "user-unhandled", "userUnhandled", "never"] →
        filterStep m f = m) ∧
    (∀ m : ExceptionBreakMode,
        filterStep m "all" = m.setAll ∧ filterStep m "always" = m.setAll) ∧
    (∀ m : ExceptionBreakMode,
        filterStep m "user-unhandled" = m.setUserUnhandled ∧
        filterStep m "userUnhandled" = m.setUserUnhandled) ∧
    (∀ m : ExceptionBreakMode, filterStep m "never" = m.resetAll) ∧
    (∀ pre post : List String,
        fromFilters (pre ++ "never" :: post) =
          List.foldl filterStep (ExceptionBreakMode.resetAll {}) post) ∧
    (fromFilters ["always"]).All = true ∧
    (fromFilters ["always", "never"]).Never = true ∧
    (fromFilters ["userUnhandled"]).UserUnhandled = true := by
  refine ⟨?_, ?_, ?_, ?_, ?_, by decide, by decide, by decide⟩
  · intro m f hf
    simp only [List.mem_cons, List.not_mem_nil, or_false, not_or] at hf
    obtain ⟨h1, h2, h3, h4, h5⟩ := hf
    simp [filterStep, VSCodeExceptionBreakModeKeyWord.ALL,
      VSCodeExceptionBreakModeKeyWord.ALWAYS,
      VSCodeExceptionBreakModeKeyWord.USERUNHANDLED,
      VSCodeExceptionBreakModeKeyWord.USERUNHANDLED_A,
      VSCodeExceptionBreakModeKeyWord.NEVER, h1, h2, h3, h4, h5]
  · intro m; exact ⟨rfl, rfl⟩
  · intro m; exact ⟨rfl, rfl⟩
  · intro m; rfl
  · intro pre post
    rw [fromFilters, List.foldl_append, List.foldl_cons]
    have hnever : ∀ m : ExceptionBreakMode, filterStep m "never" = m.resetAll :=
      fun m => rfl
    rw [hnever]
    rfl

/-- C4 witness: the general parts instantiated at concrete inputs. -/
theorem fromFilters_fold_spec_witness :
    filterStep {} "unhandled" = ({} : ExceptionBreakMode) ∧
    fromFilters (["always"] ++ "never" :: ["userUnhandled"]) =
      List.foldl filterStep (ExceptionBreakMode.resetAll {}) ["userUnhandled"] := by
  exact ⟨fromFilters_fold_spec.1 {} "unhandled" (by decide),
         fromFilters_fold_spec.2.2.2.2.1 ["always"] ["userUnhandled"]⟩

/-- Every break mode maps to one of the four defined keywords (the
"undefined" fallback is unreachable in the model). -/
lemma getVSCodeBreakMode_defined (r : ExceptionInfoResponse) :
    r.getVSCodeBreakMode ∈ [VSCodeExceptionBreakModeKeyWord.NEVER,
      VSCodeExceptionBreakModeKeyWord.ALWAYS,
      VSCodeExceptionBreakModeKeyWord.UNHANDLED,
      VSCodeExceptionBreakModeKeyWord.USERUNHANDLED] := by
  obtain ⟨eid, desc, m, det⟩ := r
  obtain ⟨a, u, un⟩ := m
  cases a <;> cases u <;> cases un <;>
    simp [ExceptionInfoResponse.getVSCodeBreakMode, ExceptionBreakMode.Never,
      ExceptionBreakMode.All, ExceptionBreakMode.OnlyUnhandled,
      ExceptionBreakMode.UserUnhandled]

/-- C9: `getVSCodeBreakMode` follows the fixed precedence Never, All,
OnlyUnhandled, UserUnhandled with "undefined" only as the final
fallback; and for every filter list the mode built by the
`setExceptionBreakpoints` fold maps back to one of the defined keywords,
never to "undefined". -/
theorem toKeyword_precedence_roundtrip :
    (∀ r : ExceptionInfoResponse, r.breakMode.Never = true →
        r.getVSCodeBreakMode = VSCodeExceptionBreakModeKeyWord.NEVER) ∧
    (∀ r : ExceptionInfoResponse, r.breakMode.Never = false →
        r.breakMode.All = true →
        r.getVSCodeBreakMode = VSCodeExceptionBreakModeKeyWord.ALWAYS) ∧
    (∀ r : ExceptionInfoResponse, r.breakMode.Never = false →
        r.breakMode.All = false → r.breakMode.OnlyUnhandled = true →
        r.getVSCodeBreakMode = VSCodeExceptionBreakModeKeyWord.UNHANDLED) ∧
    (∀ r : ExceptionInfoResponse, r.breakMode.Never = false →
        r.breakMode.All = false → r.breakMode.OnlyUnhandled = false →
        r.breakMode.UserUnhandled = true →
        r.getVSCodeBreakMode = VSCodeExceptionBreakModeKeyWord.USERUNHANDLED) ∧
    (∀ (filters : List String) (r : ExceptionInfoResponse),
        r.breakMode = fromFilters filters →
        r.getVSCodeBreakMode ≠ "undefined" ∧
        r.getVSCodeBreakMode ∈ [VSCodeExceptionBreakModeKeyWord.NEVER,
          VSCodeExceptionBreakModeKeyWord.ALWAYS,
          VSCodeExceptionBreakModeKeyWord.UNHANDLED,
          VSCodeExceptionBreakModeKeyWord.USERUNHANDLED]) := by
  refine ⟨?_, ?_, ?_, ?_, ?_⟩
  · intro r h; simp [ExceptionInfoResponse.getVSCodeBreakMode, h]
  · intro r h1 h2; simp [ExceptionInfoResponse.getVSCodeBreakMode, h1, h2]
  · intro r h1 h2 h3
    simp [ExceptionInfoResponse.getVSCodeBreakMode, h1, h2, h3]
  · intro r h1 h2 h3 h4
    simp [ExceptionInfoResponse.getVSCodeBreakMode, h1, h2, h3, h4]
  · intro filters r _
    have hd := getVSCodeBreakMode_defined r
    refine ⟨?_, hd⟩
    intro hu
    rw [hu] at hd
    simp [VSCodeExceptionBreakModeKeyWord.NEVER,
      VSCodeExceptionBreakModeKeyWord.ALWAYS,
      VSCodeExceptionBreakModeKeyWord.UNHANDLED,
      VSCodeExceptionBreakModeKeyWord.USERUNHANDLED] at hd

/-- C9 witness: the precedence cases and the round-trip at concrete
modes and filters. -/
theorem toKeyword_precedence_roundtrip_witness :
    ({ breakMode := fromFilters ["always"] } :
      ExceptionInfoResponse).getVSCodeBreakMode =
        VSCodeExceptionBreakModeKeyWord.ALWAYS ∧
    ({ breakMode := fromFilters ["never"] } :
      ExceptionInfoResponse).getVSCodeBreakMode =
        VSCodeExceptionBreakModeKeyWord.NEVER ∧
    ({ breakMode := fromFilters ["userUnhandled"] } :
      ExceptionInfoResponse).getVSCodeBreakMode ≠ "undefined" := by
  refine ⟨?_, ?_, ?_⟩
  · exact toKeyword_precedence_roundtrip.2.1 _ (by decide) (by decide)
  · exact toKeyword_precedence_roundtrip.1 _ (by decide)
  · exact (toKeyword_precedence_roundtrip.2.2.2.2 ["userUnhandled"] _ rfl).1

/-- The failure branch of the response builder, in closed form. -/
lemma buildResponse_failed (command : String) (reqSeq : Json) (status : HResult)
    (body : Json) (hs : SUCCEEDED status = false) :
    buildResponse command reqSeq status body =
      Json.obj [("type", Json.str "response"), ("command", Json.str command),
                ("request_seq", reqSeq),
                ("message",
                  match body.find? "message" with
                  | some m => m
                  | none => Json.str ("Failed command " ++ squote ++ command ++
                      squote ++ " : 0x" ++ hex8 status)),
                ("success", Json.bool false)] := by
  cases hm : body.find? "message" <;>
    simp [buildResponse, hs, hm, Json.setKey, updateAssoc]

/-- C3: a dispatched command whose handler returns a non-success
ResultCode — including an unknown command, which yields `E_NOTIMPL` —
produces a response with success false whose message is the body's
"message" field when present and otherwise the synthesized string
embedding the command name and the status code in hexadecimal; in
particular the unknown command "frobnicate" yields a message containing
the literal command name and the hex code 0x80004001. -/
theorem failed_command_message_spec :
    (∀ (cfg : ProtoConfig) (eng : Engine) (args : Json),
        handleCommand cfg eng "frobnicate" args = .ok (E_NOTIMPL, Json.obj [])) ∧
    (∀ (command : String) (reqSeq : Json) (status : HResult) (body : Json),
        FAILED status = true →
        (buildResponse command reqSeq status body).find? "success" =
          some (Json.bool false) ∧
        (buildResponse command reqSeq status body).find? "message" =
          some (match body.find? "message" with
                | some m => m
                | none => Json.str ("Failed command " ++ squote ++ command ++
                    squote ++ " : 0x" ++ hex8 status))) ∧
    processRequest cfg0 eng0
        (Json.obj [("command", Json.str "frobnicate"), ("seq", Json.num 5)]) =
      .ok (Json.obj [("type", Json.str "response"),
                     ("command", Json.str "frobnicate"),
                     ("request_seq", Json.num 5),
                     ("message", Json.str ("Failed command " ++ squote ++
                        "frobnicate" ++ squote ++ " : 0x80004001")),
                     ("success", Json.bool false)]) ∧
    (findSubstr "frobnicate".toList
      ("Failed command " ++ squote ++ "frobnicate" ++ squote ++
        " : 0x80004001").toList).isSome = true ∧
    (findSubstr "0x80004001".toList
      ("Failed command " ++ squote ++ "frobnicate" ++ squote ++
        " : 0x80004001").toList).isSome = true := by
  refine ⟨?_, ?_, by rfl, by decide, by decide⟩
  · intro cfg eng args; rfl
  · intro command reqSeq status body h
    have hs : SUCCEEDED status = false := by
      simpa [FAILED] using h
    rw [buildResponse_failed command reqSeq status body hs]
    constructor <;> simp [Json.find?, jlookup]

/-- C3 witness: the failure-shape part instantiated at a failed pause
response with no handler-supplied message. -/
theorem failed_command_message_spec_witness :
    FAILED E_FAIL = true ∧
    (buildResponse "pause" (Json.num 3) E_FAIL (Json.obj [])).find? "success" =
      some (Json.bool false) := by
  refine ⟨by decide, ?_⟩
  exact (failed_command_message_spec.2.1 "pause" (Json.num 3) E_FAIL
    (Json.obj []) (by decide)).1

/-- C2 counterexample: the "attach" command is in the dispatch table and
the claim names a non-numeric string processId as handled; but on that
very input `std::stoi` throws `std::invalid_argument`, the exception
escapes `HandleCommand` and `CommandLoop` (nothing catches it), and no
structured failure response is produced — the dispatcher does not
return a ResultCode for this in-table request. -/
theorem attach_nonnumeric_processId_throws :
    processRequest cfg0 eng0
      (Json.obj [("command", Json.str "attach"), ("seq", Json.num 1),
                 ("arguments", Json.obj [("processId", Json.str "abc")])]) =
      .error CppErr.invalidArg := by rfl

/-- C2 (amended): whenever a handler reports failure by returning a
ResultCode (no C++ exception escapes argument decoding), the loop never
converts it into a thrown or fatal condition: it always builds a
structured response with success false and a message, so such a request
is never silently dropped. (Argument shapes that make decoding throw —
missing required fields, wrong types, a non-numeric string processId —
escape the dispatcher instead; an explicitly checked wrong shape such as
a non-string non-number processId still yields the E_INVALIDARG
ResultCode structurally.) -/
theorem resultcode_failures_always_structured :
    (∀ (cfg : ProtoConfig) (eng : Engine) (request cj : Json)
        (command : String) (seqJ : Json) (status : HResult) (body : Json),
        request.at "command" = .ok cj →
        cj.getStr = .ok command →
        handleCommand cfg eng command (argumentsOf request) = .ok (status, body) →
        request.at "seq" = .ok seqJ →
        FAILED status = true →
        processRequest cfg eng request =
          .ok (buildResponse command seqJ status body) ∧
        (buildResponse command seqJ status body).find? "success" =
          some (Json.bool false) ∧
        ∃ msg, (buildResponse command seqJ status body).find? "message" =
          some msg) ∧
    (∀ (cfg : ProtoConfig) (eng : Engine) (b : Bool),
        handleCommand cfg eng "attach"
            (Json.obj [("processId", Json.bool b)]) =
          .ok (E_INVALIDARG, Json.obj [])) := by
  constructor
  · intro cfg eng request cj command seqJ status body hc hcs hh hq hf
    have hs : SUCCEEDED status = false := by simpa [FAILED] using hf
    refine ⟨?_, ?_, ?_⟩
    · simp [processRequest, hc, hcs, hh, hq, Bind.bind, Except.bind,
        Pure.pure, Except.pure]
    · rw [buildResponse_failed command seqJ status body hs]
      simp [Json.find?, jlookup]
    · refine ⟨(match body.find? "message" with
        | some m => m
        | none => Json.str ("Failed command " ++ squote ++ command ++ squote ++
            " : 0x" ++ hex8 status)), ?_⟩
      rw [buildResponse_failed command seqJ status body hs]
      simp [Json.find?, jlookup]
  · intro cfg eng b; rfl

/-- C2 amended witness: a failing configurationDone request produces the
structured failure response. -/
theorem resultcode_failures_always_structured_witness :
    processRequest cfg0 engFail
        (Json.obj [("command", Json.str "configurationDone"),
                   ("seq", Json.num 7)]) =
      .ok (buildResponse "configurationDone" (Json.num 7) E_FAIL
        (Json.obj [])) ∧
    (buildResponse "configurationDone" (Json.num 7) E_FAIL
        (Json.obj [])).find? "success" = some (Json.bool false) := by
  have h := (resultcode_failures_always_structured.1 cfg0 engFail
    (Json.obj [("command", Json.str "configurationDone"), ("seq", Json.num 7)])
    (Json.str "configurationDone") "configurationDone" (Json.num 7) E_FAIL
    (Json.obj []) (by rfl) (by rfl) (by rfl) (by rfl) (by decide))
  exact ⟨h.1, h.2.1⟩

/-- C7: a launch request whose "env" argument fails to decode as a
string-to-string map behaves exactly like the same request without an
env value: the environment is the empty map and the launch proceeds,
returning the engine's Launch status, instead of failing the command. -/
theorem launch_env_decode_tolerated
    (cfg : ProtoConfig) (eng : Engine) (cwd program : String) (v : Json)
    (e : CppErr) (hv : v.getStrMap = .error e) :
    handleCommand cfg eng "launch"
        (Json.obj [("cwd", Json.str cwd), ("env", v),
                   ("program", Json.str program)]) =
      handleCommand cfg eng "launch"
        (Json.obj [("cwd", Json.str cwd), ("program", Json.str program)]) ∧
    handleCommand cfg eng "launch"
        (Json.obj [("cwd", Json.str cwd), ("env", v),
                   ("program", Json.str program)]) =
      .ok ((if cfg.fileExec ≠ "" then
              eng.launch cfg.fileExec cfg.execArgs [] cwd false
            else eng.launch "dotnet" [program] [] cwd false), Json.obj []) := by
  have hl : ∀ args, handleCommand cfg eng "launch" args = launchCmd cfg eng args :=
    fun _ => rfl
  constructor
  · rw [hl, hl]
    by_cases hfe : cfg.fileExec = "" <;>
      simp [launchCmd, Json.at, jlookup, Json.getStr, Json.valueOf, hv, hfe,
        Bind.bind, Except.bind, Pure.pure, Except.pure]
  · rw [hl]
    by_cases hfe : cfg.fileExec = "" <;>
      simp [launchCmd, Json.at, jlookup, Json.getStr, Json.valueOf, hv, hfe,
        Bind.bind, Except.bind, Pure.pure, Except.pure]

/-- C7 witness: a numeric env value fails to decode, and the launch
still returns the engine's status. -/
theorem launch_env_decode_tolerated_witness :
    handleCommand cfg0 eng0 "launch"
        (Json.obj [("cwd", Json.str "/tmp"), ("env", Json.num 3),
                   ("program", Json.str "app.dll")]) =
      .ok (S_OK, Json.obj []) := by
  have h := (launch_env_decode_tolerated cfg0 eng0 "/tmp" "app.dll"
    (Json.num 3) CppErr.typeError (by rfl)).2
  simpa [cfg0, eng0] using h

/-- C8: an evaluate request without "frameId" resolves its frame to the
synthetic id of frame 0 of the thread returned by
`GetLastStoppedThreadId`; engine failure yields the failure status with
the engine's output text as the body message, and success yields the
value, type and variables reference, plus the named-variable count
exactly when the reference is positive. -/
theorem evaluate_frame_default_and_results :
    (∀ (cfg : ProtoConfig) (eng : Engine) (fs : List (String × Json))
        (expr : String),
        jlookup fs "expression" = some (Json.str expr) →
        jlookup fs "frameId" = none →
        handleCommand cfg eng "evaluate" (Json.obj fs) =
          evalCore eng (eng.stackFrameId eng.getLastStoppedThreadId 0) expr) ∧
    (∀ (eng : Engine) (frameId : Int) (expr : String) (status : HResult)
        (var : Variable) (output : String),
        eng.evaluate frameId expr = (status, var, output) →
        FAILED status = true →
        evalCore eng frameId expr =
          .ok (status, Json.obj [("message", Json.str output)])) ∧
    (∀ (eng : Engine) (frameId : Int) (expr : String) (status : HResult)
        (var : Variable) (output : String),
        eng.evaluate frameId expr = (status, var, output) →
        FAILED status = false →
        evalCore eng frameId expr = .ok (S_OK,
          if var.variablesReference > 0 then
            Json.obj [("result", Json.str var.value),
                      ("type", Json.str var.type),
                      ("variablesReference", Json.num var.variablesReference),
                      ("namedVariables", Json.num var.namedVariables)]
          else
            Json.obj [("result", Json.str var.value),
                      ("type", Json.str var.type),
                      ("variablesReference", Json.num var.variablesReference)])) := by
  refine ⟨?_, ?_, ?_⟩
  · intro cfg eng fs expr h1 h2
    have he : handleCommand cfg eng "evaluate" (Json.obj fs) =
        evaluateCmd cfg eng (Json.obj fs) := rfl
    rw [he]
    simp [evaluateCmd, Json.at, Json.find?, h1, h2, Json.getStr,
      Bind.bind, Except.bind, Pure.pure, Except.pure]
  · intro eng frameId expr status var output heval hf
    simp [evalCore, heval, hf, Json.setKey, updateAssoc]
  · intro eng frameId expr status var output heval hf
    by_cases hr : var.variablesReference > 0 <;>
      simp [evalCore, heval, hf, hr, Json.setKey, updateAssoc]

/-- C8 witness: the default frame resolution and the success shape at a
concrete request against the default engine. -/
theorem evaluate_frame_default_and_results_witness :
    handleCommand cfg0 eng0 "evaluate"
        (Json.obj [("expression", Json.str "x")]) =
      evalCore eng0 (eng0.stackFrameId eng0.getLastStoppedThreadId 0) "x" ∧
    evalCore eng0 0 "x" =
      .ok (S_OK, Json.obj [("result", Json.str ""), ("type", Json.str ""),
                           ("variablesReference", Json.num 0)]) := by
  constructor
  · exact evaluate_frame_default_and_results.1 cfg0 eng0
      [("expression", Json.str "x")] "x" (by rfl) (by rfl)
  · have h := evaluate_frame_default_and_results.2.2 eng0 0 "x" S_OK {} ""
      (by rfl) (by rfl)
    simpa using h

lemma jlookup_append_ne (fs : List (String × Json)) (k k' : String) (v : Json)
    (h : k ≠ k') : jlookup (fs ++ [(k', v)]) k = jlookup fs k := by
  induction fs with
  | nil => simp [jlookup, Ne.symm h]
  | cons p fs ih =>
      cases p with
      | mk a b =>
          rw [List.cons_append, jlookup, jlookup]
          split <;> simp [ih]

lemma jlookup_append_self (fs : List (String × Json)) (k : String) (v : Json)
    (h : jlookup fs k = none) : jlookup (fs ++ [(k, v)]) k = some v := by
  induction fs with
  | nil => simp [jlookup]
  | cons p fs ih =>
      cases p with
      | mk a b =>
          rw [jlookup] at h
          rw [List.cons_append, jlookup]
          by_cases hak : a = k
          · simp [hak] at h
          · simp only [hak, if_false] at h ⊢
            exact ih h

/-- C10: a request with a command field but no "arguments" member is
dispatched with the empty JSON object as arguments, and its processing
is identical to the same request carrying an explicit empty-object
"arguments" field — the absent field is never itself a failure. -/
theorem missing_arguments_defaults_empty
    (cfg : ProtoConfig) (eng : Engine) (fs : List (String × Json))
    (h : jlookup fs "arguments" = none) :
    argumentsOf (Json.obj fs) = Json.obj [] ∧
    argumentsOf (Json.obj (fs ++ [("arguments", Json.obj [])])) = Json.obj [] ∧
    processRequest cfg eng (Json.obj fs) =
      processRequest cfg eng (Json.obj (fs ++ [("arguments", Json.obj [])])) := by
  have ha1 : argumentsOf (Json.obj fs) = Json.obj [] := by
    simp [argumentsOf, Json.find?, h]
  have ha2 : argumentsOf (Json.obj (fs ++ [("arguments", Json.obj [])])) =
      Json.obj [] := by
    simp [argumentsOf, Json.find?, jlookup_append_self fs _ _ h]
  have hcmd : jlookup (fs ++ [("arguments", Json.obj [])]) "command" =
      jlookup fs "command" := jlookup_append_ne fs _ _ _ (by decide)
  have hseq : jlookup (fs ++ [("arguments", Json.obj [])]) "seq" =
      jlookup fs "seq" := jlookup_append_ne fs _ _ _ (by decide)
  refine ⟨ha1, ha2, ?_⟩
  simp only [processRequest, Json.at, hcmd, hseq, ha1, ha2]

/-- C10 witness: a pause request without arguments processes exactly
like one with an explicit empty arguments object. -/
theorem missing_arguments_defaults_empty_witness :
    argumentsOf (Json.obj [("command", Json.str "pause"), ("seq", Json.num 1)]) =
      Json.obj [] ∧
    processRequest cfg0 eng0
        (Json.obj [("command", Json.str "pause"), ("seq", Json.num 1)]) =
      processRequest cfg0 eng0
        (Json.obj [("command", Json.str "pause"), ("seq", Json.num 1),
                   ("arguments", Json.obj [])]) := by
  have h := missing_arguments_defaults_empty cfg0 eng0
    [("command", Json.str "pause"), ("seq", Json.num 1)] (by rfl)
  exact ⟨h.1, h.2.2⟩

lemma strFind_cons_self (c : Char) (l : List Char) : strFind c (c :: l) = some 0 := by
  simp [strFind]

lemma strFind_not_mem (c : Char) (l : List Char) (h : c ∉ l) :
    strFind c l = none := by
  induction l with
  | nil => rfl
  | cons x xs ih =>
      simp only [List.mem_cons, not_or] at h
      rw [strFind, if_neg (Ne.symm h.1), ih h.2]
      rfl

lemma strFind_append_not_mem (c : Char) (l1 l2 : List Char) (h : c ∉ l1) :
    strFind c (l1 ++ l2) = (strFind c l2).map (· + l1.length) := by
  induction l1 with
  | nil => cases hf : strFind c l2 <;> simp [hf]
  | cons x xs ih =>
      simp only [List.mem_cons, not_or] at h
      rw [List.cons_append, strFind, if_neg (Ne.symm h.1), ih h.2]
      cases hf : strFind c l2
      · simp [hf]
      · simp [hf]; omega

lemma strFind_split (c : Char) (l1 l2 : List Char) (h : c ∉ l1) :
    strFind c (l1 ++ c :: l2) = some l1.length := by
  rw [strFind_append_not_mem c l1 _ h, strFind_cons_self]
  simp

/-- Decomposition of a full-shape `module!name(params)` breakpoint name
by the embedded parser. -/
lemma parseFuncBpName_full (module name inner : List Char)
    (hm : '!' ∉ module) (hn1 : '(' ∉ name) (hn2 : ')' ∉ name)
    (hi : ')' ∉ inner) (hne : name ≠ [])
    (hlen : name.length + inner.length + 2 < 2 ^ 64) :
    parseFuncBpName
        (String.mk (module ++ '!' :: (name ++ '(' :: (inner ++ [')'])))) =
      (String.mk module, String.mk name,
       String.mk ('(' :: (inner ++ [')']))) := by
  have hone : 1 ≤ name.length := List.length_pos.mpr hne
  have htl : (String.mk (module ++ '!' :: (name ++ '(' :: (inner ++ [')'])))).toList
      = module ++ '!' :: (name ++ '(' :: (inner ++ [')'])) := rfl
  have hrest := strFind_split '!' module (name ++ '(' :: (inner ++ [')'])) hm
  have htake1 : (module ++ '!' :: (name ++ '(' :: (inner ++ [')']))).take
      module.length = module := List.take_left module _
  have herase1 : strErase (module ++ '!' :: (name ++ '(' :: (inner ++ [')'])))
      0 (module.length + 1) = name ++ '(' :: (inner ++ [')']) := by
    have he : module ++ '!' :: (name ++ '(' :: (inner ++ [')'])) =
        (module ++ ['!']) ++ (name ++ '(' :: (inner ++ [')'])) := by simp
    simp only [strErase, List.take_zero, List.drop_zero, List.nil_append, he]
    rw [List.drop_left' (by simp)]
  have hfo := strFind_split '(' name (inner ++ [')']) hn1
  have hnotc : (')' : Char) ∉ name ++ '(' :: inner := by
    simp only [List.mem_append, List.mem_cons, not_or]
    exact ⟨hn2, by decide, hi⟩
  have hfc : strFind ')' (name ++ '(' :: (inner ++ [')'])) =
      some (name.length + (inner.length + 1)) := by
    have he : name ++ '(' :: (inner ++ [')']) =
        (name ++ '(' :: inner) ++ ')' :: [] := by simp
    rw [he, strFind_split ')' _ _ hnotc]
    simp
  have harith : (name.length + (inner.length + 1) + 1 +
      (2 ^ 64 - name.length)) % 2 ^ 64 = inner.length + 2 := by omega
  have hparams : substrFrom (name ++ '(' :: (inner ++ [')'])) name.length
      (inner.length + 2) = '(' :: (inner ++ [')']) := by
    simp only [substrFrom]
    rw [List.drop_left name _]
    rw [show inner.length + 2 = ('(' :: (inner ++ [')'])).length by simp]
    exact List.take_length _
  have hname2 : strErase (name ++ '(' :: (inner ++ [')'])) name.length
      (name.length + (inner.length + 1)) = name := by
    simp only [strErase]
    rw [List.take_left name _, List.drop_left name _]
    rw [List.drop_eq_nil_of_le (by simp; omega)]
    simp
  simp only [parseFuncBpName, htl, hrest, htake1, herase1, hfo, hfc, harith,
    hparams, hname2]

/-- Decomposition of a `name(params)` breakpoint name with no module
part. -/
lemma parseFuncBpName_noModule (name inner : List Char)
    (hb1 : '!' ∉ name) (hb2 : '!' ∉ inner)
    (hn1 : '(' ∉ name) (hn2 : ')' ∉ name)
    (hi : ')' ∉ inner) (hne : name ≠ [])
    (hlen : name.length + inner.length + 2 < 2 ^ 64) :
    parseFuncBpName (String.mk (name ++ '(' :: (inner ++ [')']))) =
      ("", String.mk name, String.mk ('(' :: (inner ++ [')']))) := by
  have hone : 1 ≤ name.length := List.length_pos.mpr hne
  have htl : (String.mk (name ++ '(' :: (inner ++ [')']))).toList
      = name ++ '(' :: (inner ++ [')']) := rfl
  have hbang : strFind '!' (name ++ '(' :: (inner ++ [')'])) = none := by
    apply strFind_not_mem
    simp only [List.mem_append, List.mem_cons, not_or]
    exact ⟨hb1, by decide, hb2, by decide⟩
  have hfo := strFind_split '(' name (inner ++ [')']) hn1
  have hnotc : (')' : Char) ∉ name ++ '(' :: inner := by
    simp only [List.mem_append, List.mem_cons, not_or]
    exact ⟨hn2, by decide, hi⟩
  have hfc : strFind ')' (name ++ '(' :: (inner ++ [')'])) =
      some (name.length + (inner.length + 1)) := by
    have he : name ++ '(' :: (inner ++ [')']) =
        (name ++ '(' :: inner) ++ ')' :: [] := by simp
    rw [he, strFind_split ')' _ _ hnotc]
    simp
  have harith : (name.length + (inner.length + 1) + 1 +
      (2 ^ 64 - name.length)) % 2 ^ 64 = inner.length + 2 := by omega
  have hparams : substrFrom (name ++ '(' :: (inner ++ [')'])) name.length
      (inner.length + 2) = '(' :: (inner ++ [')']) := by
    simp only [substrFrom]
    rw [List.drop_left name _]
    rw [show inner.length + 2 = ('(' :: (inner ++ [')'])).length by simp]
    exact List.take_length _
  have hname2 : strErase (name ++ '(' :: (inner ++ [')'])) name.length
      (name.length + (inner.length + 1)) = name := by
    simp only [strErase]
    rw [List.take_left name _, List.drop_left name _]
    rw [List.drop_eq_nil_of_le (by simp; omega)]
    simp
  simp only [parseFuncBpName, htl, hbang, hfo, hfc, harith, hparams, hname2]

/-- Decomposition of a `module!name` breakpoint name with no params
part. -/
lemma parseFuncBpName_noParams (module name : List Char)
    (hm : '!' ∉ module) (hp : '(' ∉ name) :
    parseFuncBpName (String.mk (module ++ '!' :: name)) =
      (String.mk module, String.mk name, "") := by
  have htl : (String.mk (module ++ '!' :: name)).toList
      = module ++ '!' :: name := rfl
  have hrest := strFind_split '!' module name hm
  have htake1 : (module ++ '!' :: name).take module.length = module :=
    List.take_left module _
  have herase1 : strErase (module ++ '!' :: name) 0 (module.length + 1) =
      name := by
    have he : module ++ '!' :: name = (module ++ ['!']) ++ name := by simp
    simp only [strErase, List.take_zero, List.drop_zero, List.nil_append, he]
    rw [List.drop_left' (by simp)]
  have hnone : strFind '(' name = none := strFind_not_mem _ _ hp
  simp only [parseFuncBpName, htl, hrest, htake1, herase1, hnone]

/-- The per-breakpoint decoding applied to a well-typed entry. -/
lemma decodeFuncBp_entry (n c : String) :
    decodeFuncBp (Json.obj [("name", Json.str n), ("condition", Json.str c)]) =
      .ok ((parseFuncBpName n).1, (parseFuncBpName n).2.1,
           (parseFuncBpName n).2.2, c) := rfl

/-- The breakpoints loop forwards the decomposition of every entry. -/
lemma mapM_decodeFuncBp (l : List (String × String)) :
    mapMC decodeFuncBp (l.map (fun p => Json.obj [("name", Json.str p.1),
        ("condition", Json.str p.2)])) =
      .ok (l.map (fun p => ((parseFuncBpName p.1).1, (parseFuncBpName p.1).2.1,
        (parseFuncBpName p.1).2.2, p.2))) := by
  induction l with
  | nil => rfl
  | cons p l ih =>
      simp [mapMC, decodeFuncBp_entry, ih, Bind.bind, Except.bind,
        Pure.pure, Except.pure]

/-- The handler forwards the decomposed (module, name, params,
condition) tuples of all entries to the engine. -/
lemma setFunctionBreakpoints_forwards (cfg : ProtoConfig) (eng : Engine)
    (l : List (String × String)) :
    handleCommand cfg eng "setFunctionBreakpoints"
        (Json.obj [("breakpoints", Json.arr (l.map (fun p =>
          Json.obj [("name", Json.str p.1), ("condition", Json.str p.2)])))]) =
      (let fbps := l.map (fun p => ((parseFuncBpName p.1).1,
         (parseFuncBpName p.1).2.1, (parseFuncBpName p.1).2.2, p.2))
       if SUCCEEDED (eng.setFunctionBreakpoints fbps).1 then
         .ok (S_OK, (Json.obj []).setKey "breakpoints"
           (Json.arr ((eng.setFunctionBreakpoints fbps).2.map breakpointToJson)))
       else .ok ((eng.setFunctionBreakpoints fbps).1, Json.obj [])) := by
  have hh : handleCommand cfg eng "setFunctionBreakpoints"
      (Json.obj [("breakpoints", Json.arr (l.map (fun p =>
        Json.obj [("name", Json.str p.1), ("condition", Json.str p.2)])))]) =
      setFunctionBreakpointsCmd cfg eng
        (Json.obj [("breakpoints", Json.arr (l.map (fun p =>
          Json.obj [("name", Json.str p.1), ("condition", Json.str p.2)])))]) :=
    rfl
  rw [hh]
  simp [setFunctionBreakpointsCmd, Json.at, jlookup, Json.elements,
    mapM_decodeFuncBp, Bind.bind, Except.bind, Pure.pure, Except.pure]

/-- C5: a `setFunctionBreakpoints` name of shape `[module!]name[(params)]`
is decomposed by splitting on the first exclamation mark and the first
parenthesis group into a (module, name, params) triple, which is
forwarded together with the condition to the engine; in particular
"MyModule!Foo.Bar(int,string)" decomposes to module "MyModule", name
"Foo.Bar", params "(int,string)". -/
theorem funcbp_name_decomposition :
    (∀ module name inner : List Char, '!' ∉ module → '(' ∉ name →
        ')' ∉ name → ')' ∉ inner → name ≠ [] →
        name.length + inner.length + 2 < 2 ^ 64 →
        parseFuncBpName (String.mk (module ++ '!' :: (name ++ '(' ::
            (inner ++ [')'])))) =
          (String.mk module, String.mk name,
           String.mk ('(' :: (inner ++ [')'])))) ∧
    (∀ name inner : List Char, '!' ∉ name → '!' ∉ inner → '(' ∉ name →
        ')' ∉ name → ')' ∉ inner → name ≠ [] →
        name.length + inner.length + 2 < 2 ^ 64 →
        parseFuncBpName (String.mk (name ++ '(' :: (inner ++ [')']))) =
          ("", String.mk name, String.mk ('(' :: (inner ++ [')'])))) ∧
    (∀ module name : List Char, '!' ∉ module → '(' ∉ name →
        parseFuncBpName (String.mk (module ++ '!' :: name)) =
          (String.mk module, String.mk name, "")) ∧
    parseFuncBpName "MyModule!Foo.Bar(int,string)" =
      ("MyModule", "Foo.Bar", "(int,string)") ∧
    (∀ (cfg : ProtoConfig) (eng : Engine) (l : List (String × String)),
        handleCommand cfg eng "setFunctionBreakpoints"
            (Json.obj [("breakpoints", Json.arr (l.map (fun p =>
              Json.obj [("name", Json.str p.1),
                        ("condition", Json.str p.2)])))]) =
          (let fbps := l.map (fun p => ((parseFuncBpName p.1).1,
             (parseFuncBpName p.1).2.1, (parseFuncBpName p.1).2.2, p.2))
           if SUCCEEDED (eng.setFunctionBreakpoints fbps).1 then
             .ok (S_OK, (Json.obj []).setKey "breakpoints"
               (Json.arr ((eng.setFunctionBreakpoints fbps).2.map
                 breakpointToJson)))
           else .ok ((eng.setFunctionBreakpoints fbps).1, Json.obj []))) :=
  ⟨parseFuncBpName_full, parseFuncBpName_noModule, parseFuncBpName_noParams,
   by decide, setFunctionBreakpoints_forwards⟩

/-- C5 witness: the general full-shape decomposition instantiated at the
spec's concrete example. -/
theorem funcbp_name_decomposition_witness :
    parseFuncBpName (String.mk ("MyModule".toList ++ '!' ::
        ("Foo.Bar".toList ++ '(' :: ("int,string".toList ++ [')'])))) =
      (String.mk "MyModule".toList, String.mk "Foo.Bar".toList,
       String.mk ('(' :: ("int,string".toList ++ [')']))) :=
  funcbp_name_decomposition.1 "MyModule".toList "Foo.Bar".toList
    "int,string".toList (by decide) (by decide) (by decide) (by decide)
    (by decide) (by decide)

lemma twoCrlfSuffix_append_ne (header : List Char) (c : Char) (h : c ≠ '\n') :
    twoCrlfSuffix (header ++ [c]) = false := by
  rw [twoCrlfSuffix, List.reverse_append]
  simp only [List.reverse_cons, List.reverse_nil, List.nil_append,
    List.singleton_append, List.take_succ_cons]
  rw [beq_eq_false_iff_ne]
  intro heq
  injection heq with h1 _
  exact h h1

lemma readData_step (c : Char) (ys header : List Char)
    (h : twoCrlfSuffix (header ++ [c]) = false) :
    readData (c :: ys) header = readData ys (header ++ [c]) := by
  rw [readData]
  simp [h]

lemma readData_skip_no_lf (xs : List Char) (h : ∀ c ∈ xs, c ≠ '\n') :
    ∀ ys header, readData (xs ++ ys) header = readData ys (header ++ xs) := by
  induction xs with
  | nil => intro ys header; simp
  | cons c xs ih =>
      intro ys header
      rw [List.cons_append,
        readData_step c _ _ (twoCrlfSuffix_append_ne _ _ (h c (by simp)))]
      rw [ih (fun d hd => h d (by simp [hd])) ys (header ++ [c])]
      simp

lemma digit_ne_lf (c : Char) (h : c.isDigit = true) : c ≠ '\n' := by
  intro he
  subst he
  exact absurd h (by decide)

lemma digit_ne_plus (c : Char) (h : c.isDigit = true) : c ≠ '+' := by
  intro he
  subst he
  exact absurd h (by decide)

lemma digit_not_space (c : Char) (h : c.isDigit = true) : isSpaceC c = false := by
  by_contra hs
  rw [Bool.not_eq_false] at hs
  simp only [isSpaceC, Bool.or_eq_true, beq_iff_eq] at hs
  rcases hs with ((((rfl | rfl) | rfl) | rfl) | rfl) | rfl <;>
    exact absurd h (by decide)

lemma takeWhile_digits (ds rest : List Char) (h : ∀ c ∈ ds, c.isDigit = true) :
    (ds ++ '\r' :: rest).takeWhile Char.isDigit = ds := by
  induction ds with
  | nil => simp [List.takeWhile_cons]
  | cons c ds ih =>
      rw [List.cons_append, List.takeWhile_cons, h c (by simp)]
      simp only [if_true]
      rw [ih (fun d hd => h d (by simp [hd]))]

lemma stoulOpt_digits (ds rest : List Char) (hne : ds ≠ [])
    (h : ∀ c ∈ ds, c.isDigit = true) :
    stoulOpt (ds ++ '\r' :: rest) = some (digitsToNat ds) := by
  obtain ⟨d, ds', rfl⟩ := List.exists_cons_of_ne_nil hne
  have hd : d.isDigit = true := h d (by simp)
  have hplus : (some d = some ('+' : Char)) = False :=
    eq_false (by intro he; injection he with h2; exact digit_ne_plus d hd h2)
  have htw := takeWhile_digits (d :: ds') rest h
  simp only [List.cons_append] at htw
  simp only [stoulOpt, List.cons_append, List.dropWhile_cons,
    digit_not_space d hd, Bool.false_eq_true, if_false, List.head?_cons,
    hplus, htw]
  simp [List.isEmpty]

lemma isPrefixL_self (pat t : List Char) : isPrefixL pat (pat ++ t) = true := by
  induction pat with
  | nil => rfl
  | cons p ps ih => simp [isPrefixL, ih]

lemma findSubstr_at_zero (pat t : List Char) (hne : pat ≠ []) :
    findSubstr pat (pat ++ t) = some 0 := by
  obtain ⟨p, ps, rfl⟩ := List.exists_cons_of_ne_nil hne
  rw [List.cons_append, findSubstr, ← List.cons_append, isPrefixL_self]
  rfl

lemma twoCrlfSuffix_cl_digits_crlf (ds : List Char) (hne : ds ≠ [])
    (h : ∀ c ∈ ds, c.isDigit = true) :
    twoCrlfSuffix (CONTENT_LENGTH ++ ds ++ ['\r', '\n']) = false := by
  have hrne : ds.reverse ≠ [] := by simpa using hne
  obtain ⟨d, t, hdt⟩ := List.exists_cons_of_ne_nil hrne
  have hd : d.isDigit = true := by
    apply h
    have hmem : d ∈ ds.reverse := by rw [hdt]; simp
    simpa using hmem
  rw [twoCrlfSuffix]
  simp only [List.reverse_append, List.reverse_cons, List.reverse_nil,
    List.nil_append, List.cons_append, List.append_assoc, hdt,
    List.take_succ_cons]
  rw [beq_eq_false_iff_ne]
  intro heq
  injection heq with h1 heq2
  injection heq2 with h2 heq3
  injection heq3 with h3 _
  exact digit_ne_lf d hd h3

lemma twoCrlfSuffix_full (pre : List Char) :
    twoCrlfSuffix (pre ++ ['\r', '\n', '\r', '\n']) = true := by
  rw [twoCrlfSuffix, List.reverse_append]
  rw [show (['\r', '\n', '\r', '\n'] : List Char).reverse =
      ['\n', '\r', '\n', '\r'] from rfl]
  rw [List.take_left' (show (['\n', '\r', '\n', '\r'] :
      List Char).length = 4 from rfl)]
  decide

/-- C6: `ReadData` accumulates until the two-CRLF terminator; a header
carrying a `Content-Length: <n>` field makes it read exactly n following
characters and return them as the body (and return the empty string —
end of session — when fewer than n remain); end of input yields the
empty string; and a malformed terminated block without Content-Length is
scanned past rather than ending the session, as the concrete input
"junk\r\n\r\nContent-Length: 2\r\n\r\nhi" shows. -/
theorem readData_spec :
    (∀ header : List Char, readData [] header = .ret "" []) ∧
    (∀ ds tail : List Char, ds ≠ [] → (∀ c ∈ ds, c.isDigit = true) →
        readData (CONTENT_LENGTH ++ ds ++ '\r' :: '\n' :: '\r' :: '\n' :: tail)
            [] =
          if digitsToNat ds ≤ tail.length then
            .ret (String.mk (tail.take (digitsToNat ds)))
                 (tail.drop (digitsToNat ds))
          else .ret "" []) ∧
    readData ("junk\r\n\r\nContent-Length: 2\r\n\r\nhi".toList) [] =
      .ret "hi" [] := by
  refine ⟨fun header => rfl, ?_, by decide⟩
  intro ds tail hne h
  have hcl : ∀ c ∈ CONTENT_LENGTH, c ≠ '\n' := by decide
  have hnolf : ∀ c ∈ CONTENT_LENGTH ++ (ds ++ ['\r']), c ≠ '\n' := by
    intro c hc
    rcases List.mem_append.mp hc with hc1 | hc2
    · exact hcl c hc1
    · rcases List.mem_append.mp hc2 with hc3 | hc4
      · exact digit_ne_lf c (h c hc3)
      · simp only [List.mem_singleton] at hc4
        subst hc4
        decide
  have hin : CONTENT_LENGTH ++ ds ++ '\r' :: '\n' :: '\r' :: '\n' :: tail =
      (CONTENT_LENGTH ++ (ds ++ ['\r'])) ++ ('\n' :: '\r' :: '\n' :: tail) := by
    simp
  rw [hin, readData_skip_no_lf _ hnolf _ [], List.nil_append]
  have ht1 : twoCrlfSuffix ((CONTENT_LENGTH ++ (ds ++ ['\r'])) ++ ['\n']) =
      false := by
    have hb := twoCrlfSuffix_cl_digits_crlf ds hne h
    have he : (CONTENT_LENGTH ++ (ds ++ ['\r'])) ++ ['\n'] =
        CONTENT_LENGTH ++ ds ++ ['\r', '\n'] := by simp
    rw [he]
    exact hb
  rw [readData_step _ _ _ ht1]
  have ht2 : twoCrlfSuffix ((((CONTENT_LENGTH ++ (ds ++ ['\r'])) ++ ['\n'])) ++
      ['\r']) = false := twoCrlfSuffix_append_ne _ _ (by decide)
  rw [readData_step _ _ _ ht2]
  have hH : ((((CONTENT_LENGTH ++ (ds ++ ['\r'])) ++ ['\n']) ++ ['\r']) ++
      ['\n']) = CONTENT_LENGTH ++ (ds ++ ['\r', '\n', '\r', '\n']) := by simp
  have ht3 : twoCrlfSuffix (CONTENT_LENGTH ++ (ds ++ ['\r', '\n', '\r', '\n'])) =
      true := by
    have hb := twoCrlfSuffix_full (CONTENT_LENGTH ++ ds)
    have he : (CONTENT_LENGTH ++ ds) ++ ['\r', '\n', '\r', '\n'] =
        CONTENT_LENGTH ++ (ds ++ ['\r', '\n', '\r', '\n']) := by simp
    rw [he] at hb
    exact hb
  have hfind : findSubstr CONTENT_LENGTH
      (CONTENT_LENGTH ++ (ds ++ ['\r', '\n', '\r', '\n'])) = some 0 :=
    findSubstr_at_zero _ _ (by decide)
  have hdrop : (CONTENT_LENGTH ++ (ds ++ ['\r', '\n', '\r', '\n'])).drop
      (0 + CONTENT_LENGTH.length) = ds ++ ['\r', '\n', '\r', '\n'] := by
    rw [Nat.zero_add]
    exact List.drop_left _ _
  have hstoul : stoulOpt (ds ++ ['\r', '\n', '\r', '\n']) =
      some (digitsToNat ds) := stoulOpt_digits ds ['\n', '\r', '\n'] hne h
  rw [readData]
  simp only [hH, ht3, if_true, hfind, hdrop, hstoul]

/-- C6 witness: a concrete frame with Content-Length 2 and five
available characters returns exactly the two-character body. -/
theorem readData_spec_witness :
    readData (CONTENT_LENGTH ++ ['2'] ++ '\r' :: '\n' :: '\r' :: '\n' ::
        "hiXYZ".toList) [] = .ret "hi" "XYZ".toList := by
  have h := readData_spec.2.1 ['2'] "hiXYZ".toList (by decide) (by decide)
  exact h.trans (by decide)
